import Mathlib

/-!
Verification of the NUERALOGIX-MINI compression-and-evaluation pipeline.

Each definition below is a shallow embedding of a function of the repository,
translated from the Python sources under `analysis/`.  Numeric values that the
sources hold in IEEE floating point are modelled as exact rationals (`ℚ`) when
the function only adds, multiplies, divides and compares, and as real numbers
(`ℝ`) when the function takes square roots or logarithms.  `NaN`-able values
are modelled as `Option` values with `none` playing the role of `NaN`
(comparisons against `none` are false, matching IEEE comparisons with `NaN`).
Wall-clock timing fields of the sources' metadata records are not modelled.
-/

/-! ### Verdict Engine (`analysis/analyze_validation_results.py`)

`compare_methods` computes, for each metric present on both sides, a
percentage improvement: for higher-is-better metrics
`(ba - baseline) / baseline * 100`, for lower-is-better metrics
`(baseline - ba) / baseline * 100`, and `0` when the baseline mean is zero.
`determine_verdict` then reads the `recall_at_10` and
`compression_time_seconds` improvement percentages out of the comparison
dict (defaulting to `0` when absent) and applies the threshold rules.  The
comparison dict is modelled as an association list from metric name to its
improvement percentage. -/

/-- Verdicts returned by `determine_verdict` (the source prefixes them with an
emoji marker, which is presentation only and not modelled). -/
inductive Verdict where
  | EXPLOITABLE
  | OBSERVATIONAL
  | REJECTED
  | INSUFFICIENT_DATA
deriving DecidableEq, Repr

/-- Percentage improvement for a higher-is-better metric
(`analyze_validation_results.py`, `compare_methods`): `(ba - baseline) /
baseline * 100`, or `0` when the baseline mean is `0`. -/
def improvement_pct_higher (baseline ba : ℚ) : ℚ :=
  if baseline ≠ 0 then (ba - baseline) / baseline * 100 else 0

/-- Percentage improvement for a lower-is-better metric
(`analyze_validation_results.py`, `compare_methods`): `(baseline - ba) /
baseline * 100`, or `0` when the baseline mean is `0`. -/
def improvement_pct_lower (baseline ba : ℚ) : ℚ :=
  if baseline ≠ 0 then (baseline - ba) / baseline * 100 else 0

/-- `comparison.get(name, {}).get('improvement_pct', 0)`: look a metric's
improvement percentage up in the comparison association list, defaulting
to `0`. -/
def comparison_get (comparison : List (String × ℚ)) (name : String) : ℚ :=
  match comparison.lookup name with
  | some v => v
  | none => 0

/-- `determine_verdict` (`analyze_validation_results.py`, lines 93-115):
empty comparison gives `INSUFFICIENT_DATA`; otherwise `EXPLOITABLE` when the
`recall_at_10` improvement exceeds `2.0` and the absolute value of the
`compression_time_seconds` improvement (the source's `time_overhead_abs`)
is below `100`; otherwise `OBSERVATIONAL` when the recall improvement is
strictly between `0` and `2.0`; otherwise `REJECTED`. -/
def determine_verdict (comparison : List (String × ℚ)) : Verdict :=
  if comparison.isEmpty then Verdict.INSUFFICIENT_DATA
  else
    let recall_improvement := comparison_get comparison "recall_at_10"
    let time_overhead := comparison_get comparison "compression_time_seconds"
    let time_overhead_abs := |time_overhead|
    if 2 < recall_improvement ∧ time_overhead_abs < 100 then Verdict.EXPLOITABLE
    else if 0 < recall_improvement ∧ recall_improvement < 2 then Verdict.OBSERVATIONAL
    else Verdict.REJECTED

/-- Claim C1, counterexample: at a recall improvement of exactly `2%` (with
zero time overhead) the code returns `REJECTED`, while the claim's rule
"`OBSERVATIONAL` exactly when `0% < improvement ≤ 2%`" demands
`OBSERVATIONAL`: the improvement `2` satisfies `0 < 2 ∧ 2 ≤ 2`, yet the
verdict is not `OBSERVATIONAL`. -/
theorem C1_exact_two_percent_rejected :
    determine_verdict [("recall_at_10", 2), ("compression_time_seconds", 0)] =
      Verdict.REJECTED ∧
    (0 : ℚ) <
        comparison_get [("recall_at_10", 2), ("compression_time_seconds", 0)]
          "recall_at_10" ∧
    comparison_get [("recall_at_10", 2), ("compression_time_seconds", 0)]
        "recall_at_10" ≤ 2 ∧
    determine_verdict [("recall_at_10", 2), ("compression_time_seconds", 0)] ≠
      Verdict.OBSERVATIONAL := by
  refine ⟨by decide, by decide, by decide, by decide⟩

/-- Helper: characterization of the `EXPLOITABLE` case of
`determine_verdict` for a non-empty comparison. -/
lemma determine_verdict_exploitable_iff (comparison : List (String × ℚ))
    (hne : comparison.isEmpty = false) :
    determine_verdict comparison = Verdict.EXPLOITABLE ↔
      2 < comparison_get comparison "recall_at_10" ∧
        |comparison_get comparison "compression_time_seconds"| < 100 := by
  unfold determine_verdict
  rw [hne]
  simp only [Bool.false_eq_true, if_false]
  split_ifs with h1 h2
  · simpa using h1
  · simp [h1]
  · simp [h1]

/-- Helper: characterization of the `OBSERVATIONAL` case of
`determine_verdict` for a non-empty comparison. -/
lemma determine_verdict_observational_iff (comparison : List (String × ℚ))
    (hne : comparison.isEmpty = false) :
    determine_verdict comparison = Verdict.OBSERVATIONAL ↔
      0 < comparison_get comparison "recall_at_10" ∧
        comparison_get comparison "recall_at_10" < 2 := by
  unfold determine_verdict
  rw [hne]
  simp only [Bool.false_eq_true, if_false]
  split_ifs with h1 h2
  · simp only [reduceCtorEq, false_iff]
    rintro ⟨-, hlt⟩
    exact absurd (lt_trans h1.1 hlt) (by norm_num)
  · simpa using h2
  · simp [h2]

/-- Claim C1, amended: for a non-empty comparison, `determine_verdict` returns
`EXPLOITABLE` exactly when the `recall_at_10` improvement exceeds `2%` and the
absolute time overhead is below `100%`, and returns `OBSERVATIONAL` exactly
when the recall improvement is strictly between `0%` and `2%` (strictly below,
not "at most", `2%`); in particular for baseline Recall@10 `0.50`, boundary
Recall@10 `0.52` (a `4%` improvement) and `10%` time overhead (baseline time
`1`, boundary time `1.1`) it returns `EXPLOITABLE`. -/
theorem C1_verdict_engine_rules (comparison : List (String × ℚ))
    (hne : comparison.isEmpty = false) :
    (determine_verdict comparison = Verdict.EXPLOITABLE ↔
      2 < comparison_get comparison "recall_at_10" ∧
        |comparison_get comparison "compression_time_seconds"| < 100) ∧
    (determine_verdict comparison = Verdict.OBSERVATIONAL ↔
      0 < comparison_get comparison "recall_at_10" ∧
        comparison_get comparison "recall_at_10" < 2) ∧
    determine_verdict
        [("recall_at_10", improvement_pct_higher (1/2) (13/25)),
         ("compression_time_seconds", improvement_pct_lower 1 (11/10))] =
      Verdict.EXPLOITABLE := by
  refine ⟨determine_verdict_exploitable_iff comparison hne,
    determine_verdict_observational_iff comparison hne, ?_⟩
  have h1 : comparison_get
      [("recall_at_10", improvement_pct_higher (1/2) (13/25)),
       ("compression_time_seconds", improvement_pct_lower 1 (11/10))]
      "recall_at_10" = improvement_pct_higher (1/2) (13/25) := rfl
  have h2 : comparison_get
      [("recall_at_10", improvement_pct_higher (1/2) (13/25)),
       ("compression_time_seconds", improvement_pct_lower 1 (11/10))]
      "compression_time_seconds" = improvement_pct_lower 1 (11/10) := rfl
  rw [determine_verdict_exploitable_iff
    [("recall_at_10", improvement_pct_higher (1/2) (13/25)),
     ("compression_time_seconds", improvement_pct_lower 1 (11/10))] rfl, h1, h2]
  constructor
  · norm_num [improvement_pct_higher]
  · rw [improvement_pct_lower]
    norm_num

/-- Claim C1, witness: the amended rules instantiated at a concrete
comparison with a `4%` recall improvement and `10%` overhead. -/
theorem C1_verdict_engine_rules_witness :
    determine_verdict [("recall_at_10", 4), ("compression_time_seconds", -10)] =
        Verdict.EXPLOITABLE ↔
      2 < comparison_get [("recall_at_10", 4), ("compression_time_seconds", -10)]
            "recall_at_10" ∧
        |comparison_get [("recall_at_10", 4), ("compression_time_seconds", -10)]
            "compression_time_seconds"| < 100 :=
  (C1_verdict_engine_rules
    [("recall_at_10", 4), ("compression_time_seconds", -10)] rfl).1

/-! ### Count-based verdict (`analysis/compare_boundary_aware.py`)

`compute_verdict` walks the comparison table row by row, counting per-metric
improvements, but increments its single `total_comparisons` denominator only
on rows where both `mse_global` values are non-NaN.  Metric values that may
be `NaN` are modelled as `Option ℚ` (with `none` for `NaN`; a comparison
involving `none` is false, as IEEE comparisons with `NaN` are). -/

/-- One row of the comparison table built by `build_comparison` (only the
metric fields read by `compute_verdict` are modelled; the shared `grid`
column is not read by it). -/
structure CompRow where
  baseline_mse_global : Option ℚ
  boundary_mse_global : Option ℚ
  baseline_mse_boundary : Option ℚ
  boundary_mse_boundary : Option ℚ
  baseline_delta : Option ℚ
  boundary_delta : Option ℚ
  baseline_knn : Option ℚ
  boundary_knn : Option ℚ
  baseline_lsi : Option ℚ
  boundary_lsi : Option ℚ

/-- The five metrics whose improvements `compute_verdict` counts. -/
inductive MetricKind where
  | mseGlobal
  | mseBoundary
  | deltaBoundary
  | knnOverlap
  | lsi
deriving DecidableEq, Repr

/-- The iteration order of the `improvements` dict of `compute_verdict`. -/
def metricList : List MetricKind :=
  [MetricKind.mseGlobal, MetricKind.mseBoundary, MetricKind.deltaBoundary,
   MetricKind.knnOverlap, MetricKind.lsi]

/-- `not isnan a && not isnan b && a < b`, the guarded comparison used by
each branch of the row loop of `compute_verdict`. -/
def optLt (a b : Option ℚ) : Bool :=
  match a, b with
  | some x, some y => decide (x < y)
  | _, _ => false

/-- `not isnan a && not isnan b && abs a < abs b`, the guarded comparison
used for `delta_boundary` (smaller absolute value is better). -/
def optAbsLt (a b : Option ℚ) : Bool :=
  match a, b with
  | some x, some y => decide (|x| < |y|)
  | _, _ => false

/-- Whether a row counts as an improvement for the given metric
(`compute_verdict`'s five `if` branches): `mse_global` and `mse_boundary`
improve when the boundary value is lower, `delta_boundary` when its absolute
value is lower, `knn_overlap` and `lsi` when the boundary value is higher. -/
def rowImproves (m : MetricKind) (r : CompRow) : Bool :=
  match m with
  | MetricKind.mseGlobal => optLt r.boundary_mse_global r.baseline_mse_global
  | MetricKind.mseBoundary => optLt r.boundary_mse_boundary r.baseline_mse_boundary
  | MetricKind.deltaBoundary => optAbsLt r.boundary_delta r.baseline_delta
  | MetricKind.knnOverlap => optLt r.baseline_knn r.boundary_knn
  | MetricKind.lsi => optLt r.baseline_lsi r.boundary_lsi

/-- Whether a row increments `total_comparisons`: only the `mse_global`
branch of the loop does so, when both `mse_global` values are non-NaN. -/
def rowCounted (r : CompRow) : Bool :=
  r.baseline_mse_global.isSome && r.boundary_mse_global.isSome

/-- One step of the row loop of `compute_verdict`: bump each metric's
improvement count and (for `mse_global` comparability only) the shared
`total_comparisons` counter. -/
def verdictStep (acc : (MetricKind → ℕ) × ℕ) (r : CompRow) : (MetricKind → ℕ) × ℕ :=
  (fun m => acc.1 m + (if rowImproves m r then 1 else 0),
   acc.2 + (if rowCounted r then 1 else 0))

/-- Result record of `compute_verdict` (the `summary` string is
presentation only and not modelled). -/
structure VerdictResult where
  exploitable : Bool
  confidence : String
  improvements : MetricKind → ℕ
  total_comparisons : ℕ

/-- `compute_verdict` (`compare_boundary_aware.py`, lines 150-230): count
improvements per metric across rows, count `total_comparisons` on the
`mse_global` column only, then escalate `low` → `moderate` (some count at
least `0.5 * total_comparisons`) → `high` (some count at least
`0.7 * total_comparisons`); with no improvement at all the verdict is
non-exploitable with confidence `high`. -/
def compute_verdict (rows : List CompRow) : VerdictResult :=
  let acc := rows.foldl verdictStep (fun _ => 0, 0)
  let improvements := acc.1
  let total_comparisons := acc.2
  let any_improvement := metricList.any (fun m => decide (0 < improvements m))
  let consistent_improvement := metricList.any
    (fun m => decide ((total_comparisons : ℚ) * (1/2) ≤ (improvements m : ℚ)))
  let strong_improvement := metricList.any
    (fun m => decide ((total_comparisons : ℚ) * (7/10) ≤ (improvements m : ℚ)))
  if strong_improvement then
    ⟨true, "high", improvements, total_comparisons⟩
  else if consistent_improvement then
    ⟨true, "moderate", improvements, total_comparisons⟩
  else if any_improvement then
    ⟨true, "low", improvements, total_comparisons⟩
  else
    ⟨false, "high", improvements, total_comparisons⟩

/-- Metric improvement count over all rows, as a direct count. -/
def codeImproved (rows : List CompRow) (m : MetricKind) : ℕ :=
  rows.countP (rowImproves m)

/-- The shared comparison denominator, as a direct count: the number of rows
where both `mse_global` values are non-NaN. -/
def codeTotal (rows : List CompRow) : ℕ :=
  rows.countP rowCounted

/-- Modelled from the spec: the claim's per-metric fractions.  It counts,
for each metric separately, the rows where both of that metric's values are
non-NaN. -/
def claimCompared (rows : List CompRow) (m : MetricKind) : ℕ :=
  rows.countP (fun r =>
    match m with
    | MetricKind.mseGlobal => r.baseline_mse_global.isSome && r.boundary_mse_global.isSome
    | MetricKind.mseBoundary => r.baseline_mse_boundary.isSome && r.boundary_mse_boundary.isSome
    | MetricKind.deltaBoundary => r.baseline_delta.isSome && r.boundary_delta.isSome
    | MetricKind.knnOverlap => r.baseline_knn.isSome && r.boundary_knn.isSome
    | MetricKind.lsi => r.baseline_lsi.isSome && r.boundary_lsi.isSome)

/-- Modelled from the spec: the claim's confidence rule, with the fraction
of each metric taken over that metric's own compared points ("the fraction
of sweep points at which the boundary-aware value improves on the baseline
value (both values non-NaN)"): `high` when some metric improves on at least
70% of its compared points, else `moderate` at 50%, else `low` when some
metric improves at at least one point. -/
def claimConfidence (rows : List CompRow) : String :=
  let frac_ge := fun (m : MetricKind) (q : ℚ) =>
    decide (0 < codeImproved rows m) &&
      decide ((claimCompared rows m : ℚ) * q ≤ (codeImproved rows m : ℚ))
  if metricList.any (fun m => frac_ge m (7/10)) then "high"
  else if metricList.any (fun m => frac_ge m (1/2)) then "moderate"
  else if metricList.any (fun m => decide (0 < codeImproved rows m)) then "low"
  else "none"

/-- First counterexample row: `mse_global` comparable on both sides but not
improved; `knn_overlap` comparable and improved. -/
def cexRow1 : CompRow :=
  ⟨some 1, some 1, none, none, none, none, some 1, some 2, none, none⟩

/-- Second counterexample row: `mse_global` not comparable (baseline `NaN`);
`knn_overlap` comparable but not improved. -/
def cexRow2 : CompRow :=
  ⟨none, some 1, none, none, none, none, some 1, some 1, none, none⟩

/-- Claim C9, counterexample: on a two-row table where `knn_overlap`
improves at 1 of its 2 compared points (50%) and `mse_global` improves
nowhere, the code reports confidence `high` (because its shared denominator
only counts the single `mse_global`-comparable row, making the `knn` count
1 ≥ 0.7·1), while the claim's per-metric-fraction rule yields `moderate`. -/
theorem C9_shared_denominator_cex :
    (compute_verdict [cexRow1, cexRow2]).confidence = "high" ∧
    claimConfidence [cexRow1, cexRow2] = "moderate" ∧
    codeImproved [cexRow1, cexRow2] MetricKind.knnOverlap = 1 ∧
    claimCompared [cexRow1, cexRow2] MetricKind.knnOverlap = 2 := by
  refine ⟨?_, ?_, by decide, by decide⟩
  · norm_num [compute_verdict, verdictStep, metricList, rowImproves, rowCounted,
      optLt, optAbsLt, cexRow1, cexRow2]
  · norm_num [claimConfidence, codeImproved, claimCompared, metricList,
      rowImproves, rowCounted, optLt, optAbsLt, cexRow1, cexRow2]

/-- Helper: every metric is in the iteration list. -/
lemma mem_metricList (m : MetricKind) : m ∈ metricList := by
  cases m <;> simp [metricList]

/-- Helper: `any` over the metric list is an existential over metrics. -/
lemma any_metricList_iff (p : MetricKind → Bool) :
    metricList.any p = true ↔ ∃ m, p m = true := by
  constructor
  · intro h
    rcases List.any_eq_true.1 h with ⟨m, -, hp⟩
    exact ⟨m, hp⟩
  · rintro ⟨m, hp⟩
    exact List.any_eq_true.2 ⟨m, mem_metricList m, hp⟩

/-- Helper: the improvement-count component of the row loop. -/
lemma verdict_foldl_fst :
    ∀ (rows : List CompRow) (f : MetricKind → ℕ) (t : ℕ) (m : MetricKind),
      (rows.foldl verdictStep (f, t)).1 m = f m + codeImproved rows m := by
  intro rows
  induction rows with
  | nil => intro f t m; simp [codeImproved]
  | cons r rs ih =>
    intro f t m
    simp only [List.foldl_cons, verdictStep, ih, codeImproved, List.countP_cons]
    omega

/-- Helper: the `total_comparisons` component of the row loop. -/
lemma verdict_foldl_snd :
    ∀ (rows : List CompRow) (f : MetricKind → ℕ) (t : ℕ),
      (rows.foldl verdictStep (f, t)).2 = t + codeTotal rows := by
  intro rows
  induction rows with
  | nil => intro f t; simp [codeTotal]
  | cons r rs ih =>
    intro f t
    simp only [List.foldl_cons, verdictStep, ih, codeTotal, List.countP_cons]
    omega

/-- Some metric's improvement count reaches `0.7` of the shared
`mse_global`-based denominator. -/
def strongProp (rows : List CompRow) : Prop :=
  ∃ m, (codeTotal rows : ℚ) * (7/10) ≤ (codeImproved rows m : ℚ)

/-- Some metric's improvement count reaches `0.5` of the shared
`mse_global`-based denominator. -/
def consistentProp (rows : List CompRow) : Prop :=
  ∃ m, (codeTotal rows : ℚ) * (1/2) ≤ (codeImproved rows m : ℚ)

/-- Some metric improves on at least one row. -/
def anyImprovementProp (rows : List CompRow) : Prop :=
  ∃ m, 0 < codeImproved rows m

/-- Claim C9, amended: `compute_verdict` counts per-metric improvements over
all rows, but its single denominator `total_comparisons` only counts rows
where both `mse_global` values are non-NaN; confidence is `high` exactly when
some metric's count reaches `0.7 * total_comparisons` (or nothing improves at
all, the non-exploitable case), `moderate` exactly when no count reaches
`0.7 * total_comparisons` but some count reaches `0.5 * total_comparisons`,
and `low` exactly when some metric improves somewhere but no count reaches
`0.5 * total_comparisons`; `exploitable` is set exactly when any of the three
escalation conditions holds. -/
theorem C9_count_based_verdict (rows : List CompRow) :
    (compute_verdict rows).total_comparisons = codeTotal rows ∧
    (∀ m, (compute_verdict rows).improvements m = codeImproved rows m) ∧
    ((compute_verdict rows).confidence = "high" ↔
      strongProp rows ∨ ¬ anyImprovementProp rows) ∧
    ((compute_verdict rows).confidence = "moderate" ↔
      ¬ strongProp rows ∧ consistentProp rows) ∧
    ((compute_verdict rows).confidence = "low" ↔
      ¬ strongProp rows ∧ ¬ consistentProp rows ∧ anyImprovementProp rows) ∧
    ((compute_verdict rows).exploitable = true ↔
      strongProp rows ∨ consistentProp rows ∨ anyImprovementProp rows) := by
  have hfst : ∀ m, (rows.foldl verdictStep (fun _ => 0, 0)).1 m = codeImproved rows m := by
    intro m
    simpa using verdict_foldl_fst rows (fun _ => 0) 0 m
  have hsnd : (rows.foldl verdictStep (fun _ => 0, 0)).2 = codeTotal rows := by
    simpa using verdict_foldl_snd rows (fun _ => 0) 0
  have hstrong :
      (metricList.any fun m =>
        decide (((rows.foldl verdictStep (fun _ => 0, 0)).2 : ℚ) * (7/10) ≤
          ((rows.foldl verdictStep (fun _ => 0, 0)).1 m : ℚ))) = true ↔
        strongProp rows := by
    rw [any_metricList_iff]
    simp only [hfst, hsnd, decide_eq_true_eq]
    exact Iff.rfl
  have hcons :
      (metricList.any fun m =>
        decide (((rows.foldl verdictStep (fun _ => 0, 0)).2 : ℚ) * (1/2) ≤
          ((rows.foldl verdictStep (fun _ => 0, 0)).1 m : ℚ))) = true ↔
        consistentProp rows := by
    rw [any_metricList_iff]
    simp only [hfst, hsnd, decide_eq_true_eq]
    exact Iff.rfl
  have hany :
      (metricList.any fun m =>
        decide (0 < (rows.foldl verdictStep (fun _ => 0, 0)).1 m)) = true ↔
        anyImprovementProp rows := by
    rw [any_metricList_iff]
    simp only [hfst, decide_eq_true_eq]
    exact Iff.rfl
  have hca : consistentProp rows → ¬ anyImprovementProp rows → strongProp rows := by
    intro hc hna
    rcases hc with ⟨m, hm⟩
    have h0 : codeImproved rows m = 0 := by
      by_contra h0
      exact hna ⟨m, Nat.pos_of_ne_zero h0⟩
    rw [h0] at hm
    have ht : (codeTotal rows : ℚ) ≤ 0 := by
      push_cast at hm
      nlinarith
    have ht0 : (codeTotal rows : ℚ) = 0 :=
      le_antisymm ht (by exact_mod_cast Nat.zero_le _)
    refine ⟨m, ?_⟩
    rw [ht0]
    simp
  unfold compute_verdict
  dsimp only
  split_ifs with h1 h2 h3
  · rw [hstrong] at h1
    refine ⟨hsnd, hfst, by simp [h1], by simp [h1], by simp [h1], by simp [h1]⟩
  · rw [hstrong] at h1
    rw [hcons] at h2
    have h3 : anyImprovementProp rows := by
      by_contra hna
      exact h1 (hca h2 hna)
    have hne1 : ("moderate" : String) ≠ "high" := by decide
    have hne2 : ("moderate" : String) ≠ "low" := by decide
    refine ⟨hsnd, hfst, by simp [h1, h3, hne1], by simp [h1, h2], by simp [hne2, h2],
      by simp [h2]⟩
  · rw [hstrong] at h1
    rw [hcons] at h2
    rw [hany] at h3
    have hne1 : ("low" : String) ≠ "high" := by decide
    have hne2 : ("low" : String) ≠ "moderate" := by decide
    refine ⟨hsnd, hfst, by simp [hne1, h1, h3], by simp [hne2, h2], by simp [h1, h2, h3],
      by simp [h1, h2, h3]⟩
  · rw [hstrong] at h1
    rw [hcons] at h2
    rw [hany] at h3
    have hns : ¬ strongProp rows ∨ ¬ anyImprovementProp rows := Or.inl h1
    refine ⟨hsnd, hfst, by simp [h1, h3], by simp [h2], by simp [h3],
      by simp [h1, h2, h3]⟩

/-! ### Stability Analyzer (`analysis/run_boundary_eval.py`)

`compute_stability_metrics` collects, for each distinct grid value across all
runs' sweep points, the `delta_boundary` values (with `NaN` for a missing
metric, modelled as `none`), computes the per-grid mean (`NaN`-poisoned, so
`none` when any collected value is `none`), and then records a zero crossing
at `grid_values[i]` whenever `(mean[i] <= 0 and mean[i+1] > 0) or
(mean[i] >= 0 and mean[i+1] < 0)`.  A run is modelled as its list of sweep
points, each point being a `(grid, delta_boundary)` pair.  The standard
deviation and high-variance flags of the source (not touched by any claim)
are not modelled. -/

/-- The distinct grid values over all runs' points, ascending (the source's
`sorted(grid_to_deltas.keys())`). -/
def gridValues (runs : List (List (ℚ × Option ℚ))) : List ℚ :=
  List.insertionSort (· ≤ ·) ((runs.flatten.map Prod.fst).dedup)

/-- The `delta_boundary` values collected for one grid value, in run order
(the source's `grid_to_deltas[grid]` append order). -/
def deltasFor (runs : List (List (ℚ × Option ℚ))) (g : ℚ) : List (Option ℚ) :=
  (runs.flatten.filter (fun p => p.1 = g)).map Prod.snd

/-- `np.mean` over a list that may contain `NaN`: `none` when the list is
empty or contains a `none`, else the arithmetic mean. -/
def npMeanOpt (l : List (Option ℚ)) : Option ℚ :=
  if l.isEmpty then none
  else if l.all (fun x => x.isSome) then some ((l.filterMap id).sum / l.length)
  else none

/-- The per-grid means of `delta_boundary` (the source's `mean_delta`). -/
def meanDelta (runs : List (List (ℚ × Option ℚ))) : List (Option ℚ) :=
  (gridValues runs).map (fun g => npMeanOpt (deltasFor runs g))

/-- The sign-change test of the zero-crossing loop:
`(m[i] <= 0 and m[i+1] > 0) or (m[i] >= 0 and m[i+1] < 0)`, false when either
mean is `NaN` (as the IEEE comparisons then are). -/
def crossB (a b : Option ℚ) : Bool :=
  match a, b with
  | some x, some y => decide ((x ≤ 0 ∧ 0 < y) ∨ (0 ≤ x ∧ y < 0))
  | _, _ => false

/-- The zero-crossing loop: walk adjacent mean pairs, recording the left
grid value of each pair whose means change sign. -/
def zeroCrossingsAux : List (Option ℚ) → List ℚ → List ℚ
  | m0 :: m1 :: ms, g0 :: gs =>
    (if crossB m0 m1 then [g0] else []) ++ zeroCrossingsAux (m1 :: ms) gs
  | _, _ => []

/-- The `zero_crossings` output of `compute_stability_metrics`
(`run_boundary_eval.py`, lines 336-387). -/
def zeroCrossings (runs : List (List (ℚ × Option ℚ))) : List ℚ :=
  zeroCrossingsAux (meanDelta runs) (gridValues runs)

/-- Helper: the zero-crossing loop is the index-based filter of the claim. -/
lemma zeroCrossingsAux_eq :
    ∀ (m : List (Option ℚ)) (g : List ℚ), m.length = g.length →
      zeroCrossingsAux m g =
        (List.range (m.length - 1)).filterMap (fun i =>
          if crossB (m.getD i none) (m.getD (i + 1) none) then some (g.getD i 0)
          else none) := by
  intro m
  induction m with
  | nil => intro g h; simp [zeroCrossingsAux]
  | cons m0 ms ih =>
    intro g h
    cases ms with
    | nil =>
      cases g with
      | nil => simp at h
      | cons g0 gs => simp [zeroCrossingsAux]
    | cons m1 ms' =>
      cases g with
      | nil => simp at h
      | cons g0 gs =>
        have hlen : (m1 :: ms').length = gs.length := by
          simpa using h
        have hrange : List.range ((m0 :: m1 :: ms').length - 1) =
            0 :: (List.range ((m1 :: ms').length - 1)).map Nat.succ := by
          simp [List.range_succ_eq_map]
        rw [hrange]
        simp only [zeroCrossingsAux, List.filterMap_cons, List.filterMap_map,
          List.getD_cons_zero, List.getD_cons_succ]
        rw [ih gs hlen]
        have hfeq : ((fun i =>
            if crossB ((m0 :: m1 :: ms').getD i none)
                ((m1 :: ms').getD i none) = true then
              some ((g0 :: gs).getD i 0)
            else none) ∘ Nat.succ) = (fun i =>
            if crossB ((m1 :: ms').getD i none)
                ((m1 :: ms').getD (i + 1) none) = true then
              some (gs.getD i 0)
            else none) := by
          funext i
          simp [Function.comp_def]
        cases hc : crossB m0 m1
        · simp only [hc, Bool.false_eq_true, reduceIte, List.nil_append,
            List.filterMap_map]
          rw [hfeq]
        · simp only [hc, reduceIte, List.singleton_append, List.filterMap_map]
          rw [hfeq]

/-- A single run realizing the claim's concrete scenario: delta means
`[-0.1, -0.05, 0.02, 0.08]` over grid steps `[0.1, 0.2, 0.3, 0.4]`. -/
def stabilityExampleRuns : List (List (ℚ × Option ℚ)) :=
  [[(1/10, some (-1/10)), (2/10, some (-1/20)), (3/10, some (1/50)),
    (4/10, some (2/25))]]

/-- Claim C10: the Stability Analyzer records a zero crossing at the left
grid value of each adjacent pair of per-grid means where the mean changes
sign, inclusive of touching zero (`mean[i] ≤ 0 < mean[i+1]` or
`mean[i] ≥ 0 > mean[i+1]`, comparisons false on `NaN`); on the mean-delta
sequence `[-0.1, -0.05, 0.02, 0.08]` over steps `[0.1, 0.2, 0.3, 0.4]` it
reports exactly one zero crossing, recorded at step `0.2`, the left end of
the pair `(0.2, 0.3)`. -/
theorem C10_stability_zero_crossings (runs : List (List (ℚ × Option ℚ))) :
    zeroCrossings runs =
      (List.range ((meanDelta runs).length - 1)).filterMap (fun i =>
        if crossB ((meanDelta runs).getD i none) ((meanDelta runs).getD (i + 1) none)
        then some ((gridValues runs).getD i 0)
        else none) ∧
    meanDelta stabilityExampleRuns =
      [some (-1/10), some (-1/20), some (1/50), some (2/25)] ∧
    zeroCrossings stabilityExampleRuns = [2/10] := by
  have hmean : meanDelta stabilityExampleRuns =
      [some (-1/10), some (-1/20), some (1/50), some (2/25)] := by
    norm_num [meanDelta, gridValues, deltasFor, npMeanOpt, stabilityExampleRuns,
      List.insertionSort, List.orderedInsert, List.dedup, List.filter,
      List.filterMap_cons, List.sum_cons]
  refine ⟨?_, hmean, ?_⟩
  · exact zeroCrossingsAux_eq (meanDelta runs) (gridValues runs)
      (by simp [meanDelta])
  · have hgrid : gridValues stabilityExampleRuns = [1/10, 2/10, 3/10, 4/10] := by
      norm_num [gridValues, stabilityExampleRuns, List.insertionSort,
        List.orderedInsert, List.dedup]
    rw [zeroCrossings, hmean, hgrid]
    norm_num [zeroCrossingsAux, crossB]

/-! ### Lattice Quantizer and compression strategies
(`analysis/msmarco_run_compression.py`)

Vectors are lists of reals; matrices (numpy 2-d arrays) are lists of row
vectors.  `np.round` rounds half to even; `np.linalg.norm` of a difference is
the Euclidean distance; `np.argmin` returns the first index attaining the
minimum.  `sklearn.cluster.KMeans` is an external library: the
(compressed, centroids) pair its fitted model yields is abstracted as an
explicit function parameter `fit`, so every theorem below holds for any
behaviour of that library. -/

/-- `np.round` for one scalar: round half to even, as an integer. -/
noncomputable def npRound (x : ℝ) : ℤ :=
  if x - ⌊x⌋ < 1/2 then ⌊x⌋
  else if 1/2 < x - ⌊x⌋ then ⌊x⌋ + 1
  else if ⌊x⌋ % 2 = 0 then ⌊x⌋ else ⌊x⌋ + 1

/-- `snap_to_grid` (`msmarco_run_compression.py`, lines 36-38):
`np.round(vectors / step) * step`, elementwise over a matrix of vectors. -/
noncomputable def snap_to_grid (vectors : List (List ℝ)) (step : ℝ) : List (List ℝ) :=
  vectors.map (fun v => v.map (fun x => (npRound (x / step) : ℝ) * step))

/-- Helper: rounding an integer returns it unchanged. -/
lemma npRound_intCast (n : ℤ) : npRound (n : ℝ) = n := by
  unfold npRound
  rw [Int.floor_intCast]
  rw [if_pos (by norm_num)]

/-- Helper: `npRound 0 = 0`. -/
lemma npRound_zero : npRound 0 = 0 := by
  simpa using npRound_intCast 0

/-- Helper: the value of `npRound` when the fractional part exceeds 1/2. -/
lemma npRound_eq_add_one (x : ℝ) (h : 1/2 < x - ⌊x⌋) : npRound x = ⌊x⌋ + 1 := by
  unfold npRound
  rw [if_neg (by linarith), if_pos h]

/-- Claim C3: quantization onto the lattice of step `s > 0` is idempotent:
snapping an already-snapped matrix of vectors at the same step leaves it
unchanged (each snapped coordinate is an integer multiple of `s`, and
rounding an integer is the identity). -/
theorem C3_quantize_idempotent (vectors : List (List ℝ)) (step : ℝ)
    (h : 0 < step) :
    snap_to_grid (snap_to_grid vectors step) step = snap_to_grid vectors step := by
  have hstep : step ≠ 0 := ne_of_gt h
  unfold snap_to_grid
  rw [List.map_map]
  congr 1
  funext v
  simp only [Function.comp_apply, List.map_map]
  congr 1
  funext x
  simp only [Function.comp_apply]
  rw [mul_div_cancel_right₀ _ hstep, npRound_intCast]

/-- Claim C3, witness: idempotence at the concrete matrix `[[1]]`, step 1. -/
theorem C3_quantize_idempotent_witness :
    snap_to_grid (snap_to_grid [[(1 : ℝ)]] 1) 1 = snap_to_grid [[(1 : ℝ)]] 1 :=
  C3_quantize_idempotent [[(1 : ℝ)]] 1 (by norm_num)

/-- `run_kmeans` (`msmarco_run_compression.py`, lines 41-66): clamp `k <= 0`
to 1; when there are at most `k` vectors return `(vectors, vectors)` (every
vector its own centroid); otherwise delegate to the sklearn `KMeans` fit,
abstracted as the parameter `fit`. -/
noncomputable def run_kmeans
    (fit : List (List ℝ) → ℤ → List (List ℝ) × List (List ℝ))
    (vectors : List (List ℝ)) (k : ℤ) : List (List ℝ) × List (List ℝ) :=
  let k' := if k ≤ 0 then 1 else k
  if (vectors.length : ℤ) ≤ k' then (vectors, vectors)
  else fit vectors k'

/-- `np.argmin` over a nonempty scan: first index attaining the minimum. -/
noncomputable def npArgminAux {α : Type} [LinearOrder α] :
    ℕ → α → ℕ → List α → ℕ
  | best, _, _, [] => best
  | best, bestVal, idx, x :: xs =>
    if x < bestVal then npArgminAux idx x (idx + 1) xs
    else npArgminAux best bestVal (idx + 1) xs

/-- `np.argmin`: index of the first minimum of a list (0 on the empty list,
where numpy errors; never reached on an empty list in the modelled flows). -/
noncomputable def npArgmin {α : Type} [LinearOrder α] : List α → ℕ
  | [] => 0
  | x :: xs => npArgminAux 0 x 1 xs

/-- Euclidean distance between two vectors
(`np.linalg.norm` of the difference). -/
noncomputable def euclid (a b : List ℝ) : ℝ :=
  Real.sqrt (((List.zip a b).map (fun p => (p.1 - p.2) ^ 2)).sum)

/-- Row lookup with numpy-free default (out of range never occurs in the
modelled flows). -/
def nthVec (l : List (List ℝ)) (i : ℕ) : List ℝ :=
  l.getD i []

/-- Assignment of one vector to its nearest centroid by Euclidean distance
(`np.argmin` over the distance row, first minimum on ties). -/
noncomputable def assignNearest (centroids : List (List ℝ)) (v : List ℝ) : List ℝ :=
  nthVec centroids (npArgmin (centroids.map (euclid v)))

/-- Lexicographic non-strict comparison of rows, the row order of
`np.unique(axis=0)`. -/
noncomputable def lexLeB : List ℝ → List ℝ → Bool
  | [], _ => true
  | _ :: _, [] => false
  | a :: as, b :: bs =>
    if a < b then true else if b < a then false else lexLeB as bs

/-- `extract_unique_vectors` (`msmarco_run_compression.py`, lines 69-75):
round each coordinate to the `1e-9` tolerance grid, then `np.unique(axis=0)`
(lexicographically sorted distinct rows; `List.dedup` keeps the first of
each group of equal rows of the sorted list, so the result is the sorted
list of distinct rows). -/
noncomputable def extract_unique_vectors (vectors : List (List ℝ)) : List (List ℝ) :=
  let tol : ℝ := 1 / 1000000000
  let rounded := vectors.map (fun v => v.map (fun x => (npRound (x / tol) : ℝ) * tol))
  (List.insertionSort (fun a b => lexLeB a b = true) rounded).dedup

/-- Clamped indexing into a sorted list (numpy clips the upper interpolation
index to the last element). -/
noncomputable def nthClamp (l : List ℝ) (i : ℕ) : ℝ :=
  l.getD (min i (l.length - 1)) 0

/-- `np.percentile(l, q)` with the default linear interpolation: sort, take
the virtual index `h = (n-1) * q/100`, and interpolate between the
neighbouring order statistics. -/
noncomputable def npPercentile (l : List ℝ) (q : ℝ) : ℝ :=
  let s := List.insertionSort (· ≤ ·) l
  let h := ((l.length : ℝ) - 1) * (q / 100)
  let i := (⌊h⌋).toNat
  nthClamp s i + (h - (⌊h⌋ : ℝ)) * (nthClamp s (i + 1) - nthClamp s i)

/-- The per-vector ambiguity scores of `classify_boundary_vectors`:
`d2 - d1`, the gap between the two smallest centroid distances (second
smallest defined as the first when only one column exists). -/
noncomputable def ambiguityScores (vectors centroids : List (List ℝ)) : List ℝ :=
  vectors.map (fun v =>
    let ds := List.insertionSort (· ≤ ·) (centroids.map (euclid v))
    let d1 := ds.getD 0 0
    let d2 := if 1 < centroids.length then ds.getD 1 0 else d1
    d2 - d1)

/-- `classify_boundary_vectors` (`msmarco_run_compression.py`, lines
78-111): no boundary vectors with fewer than two centroids; otherwise mark
every vector whose ambiguity is at most the `percentile`-th percentile of
the ambiguity scores. -/
noncomputable def classify_boundary_vectors
    (vectors centroids : List (List ℝ)) (percentile : ℝ) : List Bool :=
  if centroids.length < 2 then List.replicate vectors.length false
  else
    let amb := ambiguityScores vectors centroids
    let threshold := npPercentile amb percentile
    amb.map (fun a => decide (a ≤ threshold))

/-- Metadata record of `compress_baseline` (mode string and wall-clock
`compression_time_seconds` not modelled). -/
structure BaselineInfo where
  grid : ℝ
  k : ℤ
  num_unique_centroids : ℕ

/-- `compress_baseline` (`msmarco_run_compression.py`, lines 114-152):
cluster, snap the ideal centroids to the grid, deduplicate, and assign
every vector to its nearest deduplicated snapped centroid.  The assignment
is one vectorized `np.argmin(distances, axis=1)` call executed
unconditionally; numpy raises `ValueError` ("attempt to get argmin of an
empty sequence") whenever the reduced centroid axis has length 0, even when
there are zero vector rows, so that call fails exactly when the
deduplicated centroid set is empty — modelled as `none`. -/
noncomputable def compress_baseline
    (fit : List (List ℝ) → ℤ → List (List ℝ) × List (List ℝ))
    (vectors : List (List ℝ)) (grid : ℝ) (k : ℤ) :
    Option (List (List ℝ) × BaselineInfo) :=
  let ideal_centroids := (run_kmeans fit vectors k).2
  let unique_snapped_centroids :=
    extract_unique_vectors (snap_to_grid ideal_centroids grid)
  if unique_snapped_centroids.isEmpty then none
  else
    let compressed := vectors.map (assignNearest unique_snapped_centroids)
    some (compressed, ⟨grid, k, unique_snapped_centroids.length⟩)

/-- Metadata record of `compress_boundary_aware` (mode string and
wall-clock time not modelled). -/
structure BoundaryAwareInfo where
  grid : ℝ
  k : ℤ
  boundary_step : ℝ
  num_boundary_vectors : ℕ
  num_bulk_vectors : ℕ
  num_unique_centroids : ℕ

/-- `compress_boundary_aware` (`msmarco_run_compression.py`, lines 155-222):
cluster once, classify boundary vectors at the 10th percentile, snap the
ideal centroids at `grid` (bulk) and `grid * 0.5` (boundary), deduplicate
each set, send each vector to the nearest centroid of its class (the
source's masked scatter writes preserve input order, modelled as a
per-vector conditional), and record the deduplicated union size.  Unlike
the baseline, each of the two `np.argmin(distances, axis=1)` calls is
guarded by `if np.sum(mask) > 0`, so it only runs when its class is
non-empty; it then raises `ValueError` exactly when the class's centroid
axis is empty — modelled as `none` (never reached on an empty input, whose
masks are empty). -/
noncomputable def compress_boundary_aware
    (fit : List (List ℝ) → ℤ → List (List ℝ) × List (List ℝ))
    (vectors : List (List ℝ)) (grid : ℝ) (k : ℤ) :
    Option (List (List ℝ) × BoundaryAwareInfo) :=
  let boundary_step := grid * (1/2)
  let ideal_centroids := (run_kmeans fit vectors k).2
  let boundary_mask := classify_boundary_vectors vectors ideal_centroids 10
  let unique_bulk_centroids :=
    extract_unique_vectors (snap_to_grid ideal_centroids grid)
  let unique_boundary_centroids :=
    extract_unique_vectors (snap_to_grid ideal_centroids boundary_step)
  if 0 < boundary_mask.count false ∧ unique_bulk_centroids.isEmpty then none
  else if 0 < boundary_mask.count true ∧ unique_boundary_centroids.isEmpty then
    none
  else
    let compressed := (vectors.zip boundary_mask).map (fun p =>
      if p.2 then assignNearest unique_boundary_centroids p.1
      else assignNearest unique_bulk_centroids p.1)
    let unique_all_centroids :=
      extract_unique_vectors (unique_bulk_centroids ++ unique_boundary_centroids)
    some (compressed,
     ⟨grid, k, boundary_step, boundary_mask.count true, boundary_mask.count false,
      unique_all_centroids.length⟩)

/-! ### The second clustering implementation
(`analysis/run_real_world_evaluation.py`, `simple_kmeans_compression`) -/

/-- Componentwise mean of a nonempty list of `d`-dimensional vectors
(`cluster_points.mean(axis=0)`). -/
noncomputable def vecMean (pts : List (List ℝ)) (d : ℕ) : List ℝ :=
  (List.range d).map (fun j => (pts.map (fun p => p.getD j 0)).sum / pts.length)

/-- One Lloyd iteration of `simple_kmeans_compression`: assign every
embedding to its nearest centroid, then replace centroid `i` by the mean of
its cluster when the cluster is nonempty (an empty cluster keeps its
centroid). -/
noncomputable def lloydStep (embeddings : List (List ℝ)) (k : ℕ) (d : ℕ)
    (centroids : List (List ℝ)) : List (List ℝ) :=
  let assignments := embeddings.map (fun e => npArgmin (centroids.map (euclid e)))
  (List.range k).map (fun i =>
    let cluster_points := (embeddings.zip assignments).filterMap
      (fun p => if p.2 = i then some p.1 else none)
    if 0 < cluster_points.length then vecMean cluster_points d
    else nthVec centroids i)

/-- `simple_kmeans_compression` (`run_real_world_evaluation.py`, lines
111-183): identity when there are at most `k` embeddings; otherwise seed the
centroids with the first `k` embeddings, run 10 Lloyd iterations, snap the
centroids to the grid, and compress each embedding against the snapped
centroids (with the 10th-percentile ambiguity split onto a half-step grid
when `boundary_aware` is set; the ambiguity is `d2 - d1` when `k > 1` and
`d1` itself otherwise, as in the source). -/
noncomputable def simple_kmeans_compression (embeddings : List (List ℝ))
    (k : ℤ) (grid_step : ℝ) (boundary_aware : Bool) :
    List (List ℝ) × List (List ℝ) :=
  let n := embeddings.length
  let d := (embeddings.headD []).length
  if (n : ℤ) ≤ k then (embeddings, embeddings)
  else
    let centroids := (lloydStep embeddings k.toNat d)^[10] (embeddings.take k.toNat)
    let snapped_centroids := snap_to_grid centroids grid_step
    if boundary_aware then
      let sortedD := embeddings.map (fun e =>
        List.insertionSort (· ≤ ·) (centroids.map (euclid e)))
      let ambiguity :=
        if 1 < k then sortedD.map (fun sd => sd.getD 1 0 - sd.getD 0 0)
        else sortedD.map (fun sd => sd.getD 0 0)
      let threshold := npPercentile ambiguity 10
      let is_boundary := ambiguity.map (fun a => decide (a ≤ threshold))
      let boundary_centroids := snap_to_grid centroids (grid_step * (1/2))
      let compressed := (embeddings.zip is_boundary).map (fun p =>
        if p.2 then assignNearest boundary_centroids p.1
        else assignNearest snapped_centroids p.1)
      (compressed, snapped_centroids)
    else
      (embeddings.map (assignNearest snapped_centroids), snapped_centroids)

/-- Claim C4: whenever a VectorSet has at most `k` elements, both clustering
implementations return it unchanged — `run_kmeans` yields
`(vectors, vectors)` (every vector its own centroid, the sklearn fit never
invoked), and `simple_kmeans_compression` yields
`(embeddings, embeddings)` (no Lloyd iterations, no snapping). -/
theorem C4_cluster_identity_fallback
    (fit : List (List ℝ) → ℤ → List (List ℝ) × List (List ℝ))
    (vectors : List (List ℝ)) (k : ℤ)
    (embeddings : List (List ℝ)) (k2 : ℤ) (grid_step : ℝ) (ba : Bool)
    (h1 : (vectors.length : ℤ) ≤ k) (h2 : (embeddings.length : ℤ) ≤ k2) :
    run_kmeans fit vectors k = (vectors, vectors) ∧
    simple_kmeans_compression embeddings k2 grid_step ba =
      (embeddings, embeddings) := by
  constructor
  · unfold run_kmeans
    dsimp only
    rw [if_pos]
    split_ifs with h
    · omega
    · exact h1
  · unfold simple_kmeans_compression
    dsimp only
    rw [if_pos h2]

/-- Claim C4, witness: the identity fallback at one vector and `k = 1`. -/
theorem C4_cluster_identity_fallback_witness :
    run_kmeans (fun _ _ => ([], [])) [[(0 : ℝ)]] 1 = ([[0]], [[0]]) ∧
    simple_kmeans_compression [[(0 : ℝ)]] 1 1 false = ([[0]], [[0]]) :=
  C4_cluster_identity_fallback (fun _ _ => ([], [])) [[(0 : ℝ)]] 1
    [[(0 : ℝ)]] 1 1 false (by norm_num) (by norm_num)

/-- Claim C6, counterexample: no `InvalidParameter` failure exists for
non-positive parameters.  With `k = -1` (non-positive) `run_kmeans` silently
clamps and returns the identity result; `snap_to_grid` happily snaps with
the negative step `-1` (2.3 snaps to 2); and `compress_baseline` with both
`step = -1` and `k = -1` produces an ordinary compressed output. -/
theorem C6_no_invalid_parameter_cex :
    run_kmeans (fun _ _ => ([], [])) [[(0 : ℝ)]] (-1) = ([[0]], [[0]]) ∧
    snap_to_grid [[(23 : ℝ)/10]] (-1) = [[2]] ∧
    (compress_baseline (fun _ _ => ([], [])) [[(0 : ℝ)]] (-1) (-1)).map Prod.fst =
      some [[0]] := by
  have hrk : run_kmeans (fun _ _ => ([], [])) [[(0 : ℝ)]] (-1) = ([[0]], [[0]]) := by
    unfold run_kmeans
    norm_num
  have hfloor : ⌊(-23 : ℝ)/10⌋ = -3 := by
    rw [Int.floor_eq_iff]
    norm_num
  have hround : npRound ((-23 : ℝ)/10) = -2 := by
    rw [npRound_eq_add_one ((-23 : ℝ)/10) (by rw [hfloor]; norm_num), hfloor]
    norm_num
  have hsnap : snap_to_grid [[(23 : ℝ)/10]] (-1) = [[2]] := by
    unfold snap_to_grid
    simp only [List.map_cons, List.map_nil]
    have : (23 : ℝ)/10 / (-1) = (-23 : ℝ)/10 := by norm_num
    rw [this, hround]
    norm_num
  refine ⟨hrk, hsnap, ?_⟩
  have hsnap0 : snap_to_grid [[(0 : ℝ)]] (-1) = [[0]] := by
    unfold snap_to_grid
    simp only [List.map_cons, List.map_nil]
    rw [zero_div, npRound_zero]
    norm_num
  have huniq : extract_unique_vectors [[(0 : ℝ)]] = [[0]] := by
    unfold extract_unique_vectors
    simp only [List.map_cons, List.map_nil]
    rw [zero_div, npRound_zero]
    norm_num [List.insertionSort, List.dedup]
  have heuclid : euclid [(0 : ℝ)] [(0 : ℝ)] = 0 := by
    unfold euclid
    norm_num
  unfold compress_baseline
  rw [hrk]
  dsimp only
  rw [hsnap0, huniq]
  rw [if_neg (by simp)]
  unfold assignNearest
  simp only [List.map_cons, List.map_nil, heuclid, Option.map_some]
  rfl

/-- Claim C6, amended: the code performs no `InvalidParameter` validation:
`run_kmeans` silently clamps every non-positive `k` to 1 (behaving exactly
as with `k = 1`), and `snap_to_grid` accepts any step, always returning a
matrix of the same shape (for `step = 0` the division yields non-finite
values in numpy; no error is raised on any input). -/
theorem C6_silent_clamping
    (fit : List (List ℝ) → ℤ → List (List ℝ) × List (List ℝ))
    (vectors : List (List ℝ)) (k : ℤ)
    (M : List (List ℝ)) (s : ℝ)
    (hk : k ≤ 0) :
    run_kmeans fit vectors k = run_kmeans fit vectors 1 ∧
    (snap_to_grid M s).length = M.length := by
  constructor
  · unfold run_kmeans
    dsimp only
    rw [if_pos hk]
    norm_num
  · unfold snap_to_grid
    rw [List.length_map]

/-- Claim C6, amended witness: clamping at `k = -1` on a two-vector set. -/
theorem C6_silent_clamping_witness :
    run_kmeans (fun _ _ => ([[(5 : ℝ)]], [[5]])) [[(0 : ℝ)], [1]] (-1) =
      run_kmeans (fun _ _ => ([[(5 : ℝ)]], [[5]])) [[(0 : ℝ)], [1]] 1 ∧
    (snap_to_grid [[(0 : ℝ)], [1]] 0).length = [[(0 : ℝ)], [1]].length :=
  C6_silent_clamping (fun _ _ => ([[(5 : ℝ)]], [[5]])) [[(0 : ℝ)], [1]] (-1)
    [[(0 : ℝ)], [1]] 0 (by norm_num)

/-- Claim C7, counterexample: on the empty VectorSet the Baseline strategy
does not return an empty Compression Result: its single unconditional
`np.argmin(distances, axis=1)` call runs over an empty centroid axis and
raises `ValueError` (modelled as `none`), while the Boundary-Aware
strategy, whose argmin calls are guarded by the per-class counts, does
return the empty result. -/
theorem C7_baseline_empty_raises_cex :
    compress_baseline (fun _ _ => ([], [])) [] 1 1 = none ∧
    (compress_boundary_aware (fun _ _ => ([], [])) [] 1 1).isSome = true := by
  constructor
  · rfl
  · rfl

/-- Claim C7, amended: on the empty VectorSet the Boundary-Aware strategy
returns an empty Compression Result (empty compressed sequence, zero
boundary vectors, zero bulk vectors, zero deduplicated centroids) without
error, but the Baseline strategy does not: its unconditional vectorized
`np.argmin` over the empty deduplicated centroid axis raises `ValueError`
(modelled as `none`). -/
theorem C7_empty_input_empty_result
    (fit : List (List ℝ) → ℤ → List (List ℝ) × List (List ℝ))
    (grid : ℝ) (k : ℤ) (hg : 0 < grid) (hk : 0 < k) :
    compress_baseline fit [] grid k = none ∧
    compress_boundary_aware fit [] grid k =
      some ([], ⟨grid, k, grid * (1/2), 0, 0, 0⟩) := by
  have hrk : run_kmeans fit ([] : List (List ℝ)) k = ([], []) := by
    unfold run_kmeans
    dsimp only
    rw [if_pos]
    simp only [List.length_nil, Nat.cast_zero]
    split_ifs with h <;> omega
  have huniq : extract_unique_vectors [] = [] := by
    unfold extract_unique_vectors
    simp [List.insertionSort]
  have hsnap : ∀ s : ℝ, snap_to_grid [] s = [] := by
    intro s
    rfl
  have hclass : classify_boundary_vectors [] [] 10 = [] := by
    unfold classify_boundary_vectors
    norm_num
  constructor
  · unfold compress_baseline
    rw [hrk]
    dsimp only
    rw [hsnap, huniq]
    rfl
  · unfold compress_boundary_aware
    rw [hrk]
    dsimp only
    rw [hclass]
    rw [if_neg (by simp)]
    rw [if_neg (by simp)]
    rw [hsnap, hsnap, huniq]
    simp only [List.nil_append, huniq, List.zip_nil_left, List.map_nil,
      List.count_nil, List.length_nil]

/-- Claim C7, amended witness: the empty set at grid step 1, `k = 1`. -/
theorem C7_empty_input_empty_result_witness :
    compress_baseline (fun _ _ => ([], [])) [] 1 1 = none ∧
    compress_boundary_aware (fun _ _ => ([], [])) [] 1 1 =
      some ([], ⟨1, 1, 1 * (1/2), 0, 0, 0⟩) :=
  C7_empty_input_empty_result (fun _ _ => ([], [])) 1 1 (by norm_num) (by norm_num)

/-- Helper: `getD` into the valid range is `get`. -/
lemma getD_eq_get {α : Type} (l : List α) (i : ℕ) (d : α) (h : i < l.length) :
    l.getD i d = l.get ⟨i, h⟩ := by
  simp [List.getD_eq_getElem?_getD, List.getElem?_eq_getElem h]

/-- Helper: a sorted list is monotone in clamped indexing. -/
lemma nthClamp_mono (l : List ℝ) (hs : l.Sorted (· ≤ ·)) (i j : ℕ)
    (hij : i ≤ j) : nthClamp l i ≤ nthClamp l j := by
  rcases Nat.eq_zero_or_pos l.length with h0 | hpos
  · unfold nthClamp
    rw [List.length_eq_zero.1 h0]
    simp
  · unfold nthClamp
    have hi : min i (l.length - 1) < l.length := by omega
    have hj : min j (l.length - 1) < l.length := by omega
    rw [getD_eq_get _ _ _ hi, getD_eq_get _ _ _ hj]
    exact hs.rel_get_of_le (by simp [Fin.le_def]; omega)

/-- Helper: each element of a sorted list is at most the clamped last. -/
lemma le_nthClamp_last (l : List ℝ) (hs : l.Sorted (· ≤ ·)) (i : ℕ)
    (h : i < l.length) : l.get ⟨i, h⟩ ≤ nthClamp l (l.length - 1) := by
  unfold nthClamp
  have hj : min (l.length - 1) (l.length - 1) < l.length := by omega
  rw [getD_eq_get _ _ _ hj]
  exact hs.rel_get_of_le (by simp [Fin.le_def]; omega)

/-- Helper: the clamped head of a sorted list bounds each element below. -/
lemma nthClamp_zero_le (l : List ℝ) (hs : l.Sorted (· ≤ ·)) (i : ℕ)
    (h : i < l.length) : nthClamp l 0 ≤ l.get ⟨i, h⟩ := by
  unfold nthClamp
  have hj : min 0 (l.length - 1) < l.length := by omega
  rw [getD_eq_get _ _ _ hj]
  exact hs.rel_get_of_le (by simp [Fin.le_def])

/-- Helper: the interpolated percentile value, as a function of the virtual
index `h`. -/
noncomputable def interpAt (s : List ℝ) (h : ℝ) : ℝ :=
  nthClamp s (⌊h⌋).toNat +
    (h - (⌊h⌋ : ℝ)) * (nthClamp s ((⌊h⌋).toNat + 1) - nthClamp s (⌊h⌋).toNat)

/-- Helper: interpolation lies between its two clamped order statistics. -/
lemma interpAt_bounds (s : List ℝ) (hs : s.Sorted (· ≤ ·)) (h : ℝ)
    (h0 : 0 ≤ h) :
    nthClamp s (⌊h⌋).toNat ≤ interpAt s h ∧
      interpAt s h ≤ nthClamp s ((⌊h⌋).toNat + 1) := by
  have hfr0 : 0 ≤ h - (⌊h⌋ : ℝ) := by
    have := Int.floor_le h
    linarith
  have hfr1 : h - (⌊h⌋ : ℝ) ≤ 1 := by
    have := Int.lt_floor_add_one h
    linarith
  have hAB : nthClamp s (⌊h⌋).toNat ≤ nthClamp s ((⌊h⌋).toNat + 1) :=
    nthClamp_mono s hs _ _ (by omega)
  constructor
  · unfold interpAt
    nlinarith
  · unfold interpAt
    nlinarith

/-- Helper: the interpolated percentile is monotone in the virtual index
over a sorted list. -/
lemma interpAt_mono (s : List ℝ) (hs : s.Sorted (· ≤ ·)) (h h' : ℝ)
    (h0 : 0 ≤ h) (hh : h ≤ h') : interpAt s h ≤ interpAt s h' := by
  have h0' : (0 : ℝ) ≤ h' := le_trans h0 hh
  rcases eq_or_lt_of_le (Int.floor_le_floor hh) with heq | hlt
  · unfold interpAt
    rw [heq]
    have hAB : nthClamp s (⌊h'⌋).toNat ≤ nthClamp s ((⌊h'⌋).toNat + 1) :=
      nthClamp_mono s hs _ _ (by omega)
    nlinarith
  · have hb1 : interpAt s h ≤ nthClamp s ((⌊h⌋).toNat + 1) :=
      (interpAt_bounds s hs h h0).2
    have hb2 : nthClamp s (⌊h'⌋).toNat ≤ interpAt s h' :=
      (interpAt_bounds s hs h' h0').1
    have hmid : nthClamp s ((⌊h⌋).toNat + 1) ≤ nthClamp s (⌊h'⌋).toNat := by
      apply nthClamp_mono s hs
      have hf0 : (0 : ℤ) ≤ ⌊h⌋ := Int.le_floor.2 (by exact_mod_cast h0)
      omega
    linarith

/-- Helper: `npPercentile` is `interpAt` at the virtual index. -/
lemma npPercentile_eq_interpAt (l : List ℝ) (q : ℝ) :
    npPercentile l q =
      interpAt (List.insertionSort (· ≤ ·) l) (((l.length : ℝ) - 1) * (q / 100)) := by
  rfl

/-- Helper: `npPercentile` is monotone in the percentile argument. -/
lemma npPercentile_mono (l : List ℝ) (hne : l ≠ []) (q q' : ℝ)
    (hq0 : 0 ≤ q) (hqq : q ≤ q') : npPercentile l q ≤ npPercentile l q' := by
  rw [npPercentile_eq_interpAt, npPercentile_eq_interpAt]
  have hn : (1 : ℝ) ≤ (l.length : ℝ) := by
    have : 1 ≤ l.length := List.length_pos.2 hne
    exact_mod_cast this
  apply interpAt_mono _ (List.sorted_insertionSort _ l)
  · exact mul_nonneg (by linarith) (div_nonneg hq0 (by norm_num))
  · have : (0 : ℝ) ≤ (l.length : ℝ) - 1 := by linarith
    apply mul_le_mul_of_nonneg_left _ this
    linarith

/-- Helper: the 100th percentile is the clamped last order statistic. -/
lemma npPercentile_hundred (l : List ℝ) (hne : l ≠ []) :
    npPercentile l 100 =
      nthClamp (List.insertionSort (· ≤ ·) l) (l.length - 1) := by
  rw [npPercentile_eq_interpAt]
  have hlen : 1 ≤ l.length := List.length_pos.2 hne
  have h100 : ((l.length : ℝ) - 1) * ((100 : ℝ)/100) = ((l.length - 1 : ℕ) : ℝ) := by
    push_cast [hlen]
    ring
  rw [h100]
  unfold interpAt
  rw [Int.floor_natCast]
  simp

/-- Helper: the 0th percentile is the clamped first order statistic. -/
lemma npPercentile_zero (l : List ℝ) :
    npPercentile l 0 = nthClamp (List.insertionSort (· ≤ ·) l) 0 := by
  rw [npPercentile_eq_interpAt]
  have h0 : ((l.length : ℝ) - 1) * ((0 : ℝ)/100) = 0 := by ring
  rw [h0]
  unfold interpAt
  simp

/-- Helper: every member is at most the 100th percentile. -/
lemma member_le_npPercentile_hundred (l : List ℝ) (hne : l ≠ []) (x : ℝ)
    (hx : x ∈ l) : x ≤ npPercentile l 100 := by
  rw [npPercentile_hundred l hne]
  have hxs : x ∈ List.insertionSort (· ≤ ·) l :=
    (List.perm_insertionSort (· ≤ ·) l).mem_iff.2 hx
  rcases List.mem_iff_get.1 hxs with ⟨i, rfl⟩
  have hlen : (List.insertionSort (· ≤ ·) l).length = l.length :=
    (List.perm_insertionSort (· ≤ ·) l).length_eq
  rw [← hlen]
  exact le_nthClamp_last (List.insertionSort (· ≤ ·) l)
    (List.sorted_insertionSort (· ≤ ·) l) i i.isLt
/-- Helper: some member is at most the 0th percentile (the minimum is
attained). -/
lemma exists_member_le_npPercentile_zero (l : List ℝ) (hne : l ≠ []) :
    ∃ x ∈ l, x ≤ npPercentile l 0 := by
  rw [npPercentile_zero l]
  have hlen : (List.insertionSort (· ≤ ·) l).length = l.length :=
    (List.perm_insertionSort (· ≤ ·) l).length_eq
  have hpos : 0 < (List.insertionSort (· ≤ ·) l).length := by
    rw [hlen]
    exact List.length_pos.2 hne
  refine ⟨(List.insertionSort (· ≤ ·) l).get ⟨0, hpos⟩, ?_, ?_⟩
  · exact (List.perm_insertionSort (· ≤ ·) l).mem_iff.1 (List.get_mem _ _ hpos)
  · unfold nthClamp
    have h0 : min 0 ((List.insertionSort (· ≤ ·) l).length - 1) <
        (List.insertionSort (· ≤ ·) l).length := by omega
    rw [getD_eq_get _ _ _ h0]
    apply le_of_eq
    congr 1
    simp [Fin.ext_iff]

/-- Helper: length of the ambiguity-score list. -/
lemma ambiguityScores_length (vectors centroids : List (List ℝ)) :
    (ambiguityScores vectors centroids).length = vectors.length := by
  unfold ambiguityScores
  rw [List.length_map]

/-- Claim C5, amended: for a non-empty VectorSet and at least two centroids,
the boundary classifier at `percentile = 100` marks every vector as
boundary; the set of marked vectors is monotonically non-decreasing in the
percentile; but at `percentile = 0` it marks not zero vectors but every
vector attaining the minimum ambiguity — at least one. -/
theorem C5_boundary_classifier_percentiles
    (vectors centroids : List (List ℝ)) (p p' : ℝ)
    (hv : vectors ≠ []) (hc : 2 ≤ centroids.length)
    (hp0 : 0 ≤ p) (hpp : p ≤ p') :
    (∀ b ∈ classify_boundary_vectors vectors centroids 100, b = true) ∧
    (∃ i, (classify_boundary_vectors vectors centroids 0).getD i false = true) ∧
    (∀ i, (classify_boundary_vectors vectors centroids p).getD i false = true →
      (classify_boundary_vectors vectors centroids p').getD i false = true) := by
  have hguard : ¬ centroids.length < 2 := by omega
  have hamb : (ambiguityScores vectors centroids) ≠ [] := by
    have := ambiguityScores_length vectors centroids
    intro h
    rw [h] at this
    exact hv (List.length_eq_zero.1 this.symm)
  refine ⟨?_, ?_, ?_⟩
  · intro b hb
    unfold classify_boundary_vectors at hb
    rw [if_neg hguard] at hb
    dsimp only at hb
    rcases List.mem_map.1 hb with ⟨a, ha, rfl⟩
    exact decide_eq_true (member_le_npPercentile_hundred _ hamb a ha)
  · unfold classify_boundary_vectors
    rw [if_neg hguard]
    dsimp only
    rcases exists_member_le_npPercentile_zero _ hamb with ⟨x, hx, hle⟩
    rcases List.mem_iff_get.1 hx with ⟨i, rfl⟩
    refine ⟨i, ?_⟩
    have hi : (i : ℕ) <
        ((ambiguityScores vectors centroids).map
          (fun a => decide (a ≤ npPercentile (ambiguityScores vectors centroids) 0))).length := by
      rw [List.length_map]
      exact i.isLt
    rw [getD_eq_get _ _ _ hi]
    simp only [List.get_map]
    exact decide_eq_true hle
  · intro i hi
    unfold classify_boundary_vectors at hi ⊢
    rw [if_neg hguard] at hi ⊢
    dsimp only at hi ⊢
    by_cases hlen : i < (ambiguityScores vectors centroids).length
    · have hlen1 : i <
          ((ambiguityScores vectors centroids).map
            (fun a => decide (a ≤ npPercentile (ambiguityScores vectors centroids) p))).length := by
        rw [List.length_map]; exact hlen
      have hlen2 : i <
          ((ambiguityScores vectors centroids).map
            (fun a => decide (a ≤ npPercentile (ambiguityScores vectors centroids) p'))).length := by
        rw [List.length_map]; exact hlen
      rw [getD_eq_get _ _ _ hlen1] at hi
      rw [getD_eq_get _ _ _ hlen2]
      simp only [List.get_map] at hi ⊢
      have hx := of_decide_eq_true hi
      exact decide_eq_true
        (le_trans hx (npPercentile_mono _ hamb p p' hp0 hpp))
    · exfalso
      rw [List.getD_eq_default] at hi
      · exact Bool.false_ne_true hi
      · rw [List.length_map]
        omega

/-- Claim C5, amended witness: the classifier properties instantiated at the
two 1-dimensional vectors `[0], [3]` with centroids `[0], [4]` and
percentiles `0 ≤ 50`. -/
theorem C5_boundary_classifier_percentiles_witness :
    (∀ b ∈ classify_boundary_vectors [[(0 : ℝ)], [3]] [[0], [4]] 100, b = true) ∧
    (∃ i, (classify_boundary_vectors [[(0 : ℝ)], [3]] [[0], [4]] 0).getD i false = true) ∧
    (∀ i, (classify_boundary_vectors [[(0 : ℝ)], [3]] [[0], [4]] 0).getD i false = true →
      (classify_boundary_vectors [[(0 : ℝ)], [3]] [[0], [4]] 50).getD i false = true) :=
  C5_boundary_classifier_percentiles [[(0 : ℝ)], [3]] [[0], [4]] 0 50
    (by simp) (by simp) (by norm_num) (by norm_num)

/-- Helper: Euclidean distance of 1-dimensional vectors. -/
lemma euclid_single (a b : ℝ) : euclid [a] [b] = |a - b| := by
  unfold euclid
  simp only [List.zip_cons_cons, List.zip_nil_right, List.map_cons,
    List.map_nil, List.sum_cons, List.sum_nil, add_zero]
  exact Real.sqrt_sq_eq_abs _

/-- Claim C5, counterexample: with the two vectors `[0], [3]` and centroids
`[0], [4]` (ambiguities 4 and 2), `percentile = 0` gives the threshold 2 =
the minimum ambiguity, so the second vector is marked: one vector is
boundary, not zero as the claim requires. -/
theorem C5_percentile_zero_cex :
    classify_boundary_vectors [[(0 : ℝ)], [3]] [[0], [4]] 0 = [false, true] ∧
    ([false, true].count true = 1) := by
  have e1 : euclid [(0 : ℝ)] [0] = 0 := by rw [euclid_single]; norm_num
  have e2 : euclid [(0 : ℝ)] [4] = 4 := by rw [euclid_single]; norm_num
  have e3 : euclid [(3 : ℝ)] [0] = 3 := by rw [euclid_single]; norm_num
  have e4 : euclid [(3 : ℝ)] [4] = 1 := by rw [euclid_single]; norm_num
  have hamb : ambiguityScores [[(0 : ℝ)], [3]] [[0], [4]] = [4, 2] := by
    unfold ambiguityScores
    simp only [List.map_cons, List.map_nil, e1, e2, e3, e4]
    norm_num [List.insertionSort, List.orderedInsert]
  have hperc : npPercentile [(4 : ℝ), 2] 0 = 2 := by
    rw [npPercentile_zero]
    norm_num [List.insertionSort, List.orderedInsert, nthClamp]
  have d1 : decide ((4 : ℝ) ≤ 2) = false := decide_eq_false (by norm_num)
  have d2 : decide ((2 : ℝ) ≤ 2) = true := decide_eq_true (by norm_num)
  constructor
  · unfold classify_boundary_vectors
    rw [if_neg (by norm_num)]
    dsimp only
    rw [hamb, hperc]
    simp [d1, d2]
  · decide

/-! ### Self-referential retrieval metrics
(`analysis/real_world_validation.py`)

Each vector's neighborhood in the original space is the pseudo-ground truth;
the compressed space is scored against it.  `np.argsort` is modelled as a
stable sort of the enumerated values (ties cannot arise in the concrete
inputs used below).  Setting `orig_dists[i] = np.inf` to exclude self is
modelled with `WithTop ℝ`, whose `⊤` compares like `np.inf`;
`1.0 / (np.inf + 1e-10) = 0.0` exactly, modelled as a literal zero
relevance at the self index. -/

/-- `np.argsort`: indices of the list sorted by increasing value. -/
noncomputable def npArgsort (l : List ℝ) : List ℕ :=
  (List.insertionSort (fun p q : ℕ × ℝ => p.2 ≤ q.2) l.enum).map Prod.fst

namespace RealWorldValidation

/-- `compute_recall_at_k` (`real_world_validation.py`, lines 59-89): the
degenerate guard returns the perfect score for fewer than `k + 1` vectors;
otherwise the mean, over every query index, of the overlap fraction between
the `k` nearest non-self neighbours in original and compressed space. -/
noncomputable def compute_recall_at_k (original compressed : List (List ℝ))
    (k : ℕ) : ℝ :=
  let n := original.length
  if n < k + 1 then 1
  else
    let recalls := (List.range n).map (fun i =>
      let orig_dists := original.map (fun x => euclid x (nthVec original i))
      let orig_nearest := ((npArgsort orig_dists).drop 1).take k
      let comp_dists := compressed.map (fun x => euclid x (nthVec compressed i))
      let comp_nearest := ((npArgsort comp_dists).drop 1).take k
      ((orig_nearest.filter (fun j => decide (j ∈ comp_nearest))).length : ℝ) / k)
    recalls.sum / recalls.length

/-- `compute_mrr` (`real_world_validation.py`, lines 92-120): no degenerate
guard; for each query the self distance is replaced by `np.inf` (`⊤`), the
remaining nearest original-space neighbour is located in the compressed
ranking, and its reciprocal rank (0 beyond `k`) is averaged. -/
noncomputable def compute_mrr (original compressed : List (List ℝ))
    (k : ℕ) : ℝ :=
  let n := original.length
  let reciprocal_ranks := (List.range n).map (fun i =>
    let orig_dists : List (WithTop ℝ) :=
      (original.map (fun x => euclid x (nthVec original i))).enum.map
        (fun p => if p.1 = i then (⊤ : WithTop ℝ) else (p.2 : WithTop ℝ))
    let true_nearest := npArgmin orig_dists
    let comp_dists := compressed.map (fun x => euclid x (nthVec compressed i))
    let comp_ranks := npArgsort comp_dists
    let rank := comp_ranks.indexOf true_nearest + 1
    if rank ≤ k then (1 : ℝ) / rank else 0)
  reciprocal_ranks.sum / reciprocal_ranks.length

/-- `compute_ndcg` (`real_world_validation.py`, lines 123-156): the
degenerate guard returns the perfect score for fewer than `k + 1` vectors;
otherwise inverse-distance relevances (0 at the excluded self) are summed
with logarithmic discounts along the ideal (descending-relevance) and the
compressed orders, and the mean of `actual / (ideal + 1e-10)` is taken. -/
noncomputable def compute_ndcg (original compressed : List (List ℝ))
    (k : ℕ) : ℝ :=
  let n := original.length
  if n < k + 1 then 1
  else
    let ndcgs := (List.range n).map (fun i =>
      let relevance :=
        (original.map (fun x => euclid x (nthVec original i))).enum.map
          (fun p => if p.1 = i then (0 : ℝ) else 1 / (p.2 + 1/10000000000))
      let ideal_order := ((npArgsort relevance).reverse).take k
      let ideal_dcg := (ideal_order.enum.map
        (fun p => relevance.getD p.2 0 / Real.logb 2 ((p.1 : ℝ) + 2))).sum
      let comp_dists := compressed.map (fun x => euclid x (nthVec compressed i))
      let actual_order := ((npArgsort comp_dists).drop 1).take k
      let actual_dcg := (actual_order.enum.map
        (fun p => relevance.getD p.2 0 / Real.logb 2 ((p.1 : ℝ) + 2))).sum
      actual_dcg / (ideal_dcg + 1/10000000000))
    ndcgs.sum / ndcgs.length

end RealWorldValidation

/-- Claim C8, amended: with fewer than `k + 1` vectors the Recall@k and
NDCG@k evaluators return the perfect score 1.0 through their degenerate
guards, but `compute_mrr` has no such guard and computes the mean
reciprocal rank normally. -/
theorem C8_degenerate_guard (original compressed : List (List ℝ)) (k : ℕ)
    (h : original.length < k + 1) :
    RealWorldValidation.compute_recall_at_k original compressed k = 1 ∧
    RealWorldValidation.compute_ndcg original compressed k = 1 := by
  constructor
  · unfold RealWorldValidation.compute_recall_at_k
    rw [if_pos h]
  · unfold RealWorldValidation.compute_ndcg
    rw [if_pos h]

/-- Claim C8, amended witness: the guards at two vectors, `k = 10`. -/
theorem C8_degenerate_guard_witness :
    RealWorldValidation.compute_recall_at_k [[(0 : ℝ)], [1]] [[0], [1]] 10 = 1 ∧
    RealWorldValidation.compute_ndcg [[(0 : ℝ)], [1]] [[0], [1]] 10 = 1 :=
  C8_degenerate_guard [[(0 : ℝ)], [1]] [[0], [1]] 10 (by norm_num)

/-- Claim C8, counterexample: on the two (fewer than `k + 1 = 11`) identical
vector sets `[0], [1]`, `compute_mrr` returns `0.5`, not the perfect score
1.0 the claim requires for every self-referential metric: each vector's true
nearest neighbour sits at rank 2 of the compressed ranking (rank 1 being the
vector itself), so every reciprocal rank is `1/2`. -/
theorem C8_mrr_no_guard_cex :
    RealWorldValidation.compute_mrr [[(0 : ℝ)], [1]] [[0], [1]] 10 = 1/2 ∧
    [[(0 : ℝ)], [1]].length < 10 + 1 ∧
    RealWorldValidation.compute_mrr [[(0 : ℝ)], [1]] [[0], [1]] 10 ≠ 1 := by
  have hd0 : [euclid [(0 : ℝ)] (nthVec [[(0 : ℝ)], [1]] 0),
      euclid [(1 : ℝ)] (nthVec [[(0 : ℝ)], [1]] 0)] = [0, 1] := by
    rw [show nthVec [[(0 : ℝ)], [1]] 0 = [0] from rfl, euclid_single, euclid_single]
    norm_num
  have hd1 : [euclid [(0 : ℝ)] (nthVec [[(0 : ℝ)], [1]] 1),
      euclid [(1 : ℝ)] (nthVec [[(0 : ℝ)], [1]] 1)] = [1, 0] := by
    rw [show nthVec [[(0 : ℝ)], [1]] 1 = [1] from rfl, euclid_single, euclid_single]
    norm_num
  have hmask0 : (List.enum [(0 : ℝ), 1]).map
      (fun p => if p.1 = 0 then (⊤ : WithTop ℝ) else (p.2 : WithTop ℝ)) =
      [(⊤ : WithTop ℝ), ((1 : ℝ) : WithTop ℝ)] := by
    rw [show List.enum [(0 : ℝ), 1] = [(0, 0), (1, 1)] from rfl]
    simp
  have hmask1 : (List.enum [(1 : ℝ), 0]).map
      (fun p => if p.1 = 1 then (⊤ : WithTop ℝ) else (p.2 : WithTop ℝ)) =
      [((1 : ℝ) : WithTop ℝ), (⊤ : WithTop ℝ)] := by
    rw [show List.enum [(1 : ℝ), 0] = [(0, 1), (1, 0)] from rfl]
    simp
  have hmin0 : npArgmin [(⊤ : WithTop ℝ), ((1 : ℝ) : WithTop ℝ)] = 1 := by
    unfold npArgmin npArgminAux
    rw [if_pos (WithTop.coe_lt_top (1 : ℝ))]
    rfl
  have hmin1 : npArgmin [((1 : ℝ) : WithTop ℝ), (⊤ : WithTop ℝ)] = 0 := by
    unfold npArgmin npArgminAux
    rw [if_neg not_top_lt]
    rfl
  have hsort0 : npArgsort [(0 : ℝ), 1] = [0, 1] := by
    unfold npArgsort
    rw [show List.enum [(0 : ℝ), 1] = [(0, 0), (1, 1)] from rfl]
    rw [show List.insertionSort (fun p q : ℕ × ℝ => p.2 ≤ q.2)
        [(0, 0), (1, 1)] =
        List.orderedInsert (fun p q : ℕ × ℝ => p.2 ≤ q.2) (0, 0) [(1, 1)]
      from rfl]
    rw [List.orderedInsert_of_le]
    · rfl
    · norm_num
  have hsort1 : npArgsort [(1 : ℝ), 0] = [1, 0] := by
    unfold npArgsort
    rw [show List.enum [(1 : ℝ), 0] = [(0, 1), (1, 0)] from rfl]
    rw [show List.insertionSort (fun p q : ℕ × ℝ => p.2 ≤ q.2)
        [(0, 1), (1, 0)] =
        List.orderedInsert (fun p q : ℕ × ℝ => p.2 ≤ q.2) (0, 1) [(1, 0)]
      from rfl]
    unfold List.orderedInsert
    rw [if_neg (by norm_num)]
    rfl
  have hmain : RealWorldValidation.compute_mrr [[(0 : ℝ)], [1]] [[0], [1]] 10 = 1/2 := by
    unfold RealWorldValidation.compute_mrr
    dsimp only
    rw [show List.range [[(0 : ℝ)], [1]].length = [0, 1] from rfl]
    simp only [List.map_cons, List.map_nil]
    rw [hd0, hd1, hmask0, hmask1, hmin0, hmin1, hsort0, hsort1]
    rw [show List.indexOf 1 [0, 1] = 1 from rfl,
      show List.indexOf 0 [1, 0] = 1 from rfl]
    norm_num
  refine ⟨hmain, by norm_num, ?_⟩
  rw [hmain]
  norm_num

/-! ### Ground-truth retrieval metrics
(`analysis/msmarco_eval_retrieval.py`)

Recall and MRR only add, divide and compare, so they are modelled over `ℚ`;
DCG takes base-2 logarithms and is modelled over `ℝ`.  The relevant set of a
query (a Python set of passage id strings) is a `Finset String`. -/

namespace MsmarcoEval

/-- `compute_recall_at_k` (`msmarco_eval_retrieval.py`, lines 107-125):
0 for an empty relevant set, else the fraction of the relevant ids present
among the first `k` retrieved ids. -/
def compute_recall_at_k (retrieved : List String) (relevant : Finset String)
    (k : ℕ) : ℚ :=
  if relevant = ∅ then 0
  else (((retrieved.take k).toFinset ∩ relevant).card : ℚ) / relevant.card

/-- The scan of `compute_mrr`, carrying the current zero-based index. -/
def mrrAux : ℕ → List String → Finset String → ℚ
  | _, [], _ => 0
  | i, x :: xs, relevant =>
    if x ∈ relevant then 1 / ((i : ℚ) + 1) else mrrAux (i + 1) xs relevant

/-- `compute_mrr` (`msmarco_eval_retrieval.py`, lines 128-142): reciprocal
of the 1-based rank of the first relevant id, 0 when none is found. -/
def compute_mrr (retrieved : List String) (relevant : Finset String) : ℚ :=
  mrrAux 0 retrieved relevant

/-- `compute_dcg_at_k` (`msmarco_eval_retrieval.py`, lines 145-162):
binary-gain discounted cumulative gain, `1 / log2(i + 2)` for a relevant id
at zero-based rank `i` among the first `k` retrieved. -/
noncomputable def compute_dcg_at_k (retrieved : List String)
    (relevant : Finset String) (k : ℕ) : ℝ :=
  ((retrieved.take k).enum.map
    (fun p => if p.2 ∈ relevant then 1 / Real.logb 2 ((p.1 : ℝ) + 2) else 0)).sum

/-- `compute_ndcg_at_k` (`msmarco_eval_retrieval.py`, lines 165-189): DCG
normalized by the DCG of `min(|relevant|, k)` placeholder ids ranked at the
top; 0 when the ideal DCG is 0. -/
noncomputable def compute_ndcg_at_k (retrieved : List String)
    (relevant : Finset String) (k : ℕ) : ℝ :=
  let dcg := compute_dcg_at_k retrieved relevant k
  let ideal_retrieved := List.replicate (min relevant.card k) "relevant"
  let idcg := compute_dcg_at_k ideal_retrieved {"relevant"} k
  if idcg = 0 then 0 else dcg / idcg

end MsmarcoEval

set_option maxRecDepth 8000 in
/-- Helper: `log2 3` lies strictly between `1.58` and `1.59`
(`2^158 < 3^100 < 2^159`). -/
lemma logb_two_three_bounds :
    (158/100 : ℝ) < Real.logb 2 3 ∧ Real.logb 2 3 < 159/100 := by
  have hb : (1 : ℝ) < 2 := by norm_num
  constructor
  · have hnat : (2:ℕ)^158 < 3^100 := by norm_num
    have hr : (2:ℝ)^(158:ℕ) < (3:ℝ)^(100:ℕ) := by exact_mod_cast hnat
    have h2 := Real.logb_lt_logb hb (by positivity) hr
    rw [Real.logb_pow, Real.logb_pow, Real.logb_self_eq_one hb] at h2
    push_cast at h2
    linarith
  · have hnat : (3:ℕ)^100 < 2^159 := by norm_num
    have hr : (3:ℝ)^(100:ℕ) < (2:ℝ)^(159:ℕ) := by exact_mod_cast hnat
    have h2 := Real.logb_lt_logb hb (by positivity) hr
    rw [Real.logb_pow, Real.logb_pow, Real.logb_self_eq_one hb] at h2
    push_cast at h2
    linarith

/-- Helper: the DCG of the ranking `["p3","p1","p2"]` against relevant set
`{"p1","p2"}` at `k = 10`. -/
lemma dcg_concrete :
    MsmarcoEval.compute_dcg_at_k ["p3", "p1", "p2"] {"p1", "p2"} 10 =
      1 / Real.logb 2 3 + 1 / 2 := by
  unfold MsmarcoEval.compute_dcg_at_k
  rw [show (["p3", "p1", "p2"].take 10).enum =
    [(0, "p3"), (1, "p1"), (2, "p2")] from rfl]
  simp only [List.map_cons, List.map_nil, List.sum_cons, List.sum_nil]
  rw [if_neg (by decide), if_pos (by decide), if_pos (by decide)]
  have h3 : (((1:ℕ) : ℝ) + 2) = 3 := by norm_num
  have h4 : (((2:ℕ) : ℝ) + 2) = (2 : ℝ)^(2:ℕ) := by norm_num
  rw [h3, h4, Real.logb_pow, Real.logb_self_eq_one (by norm_num : (1:ℝ) < 2)]
  norm_num

/-- Helper: the ideal DCG for two relevant documents at `k = 10`. -/
lemma idcg_concrete :
    MsmarcoEval.compute_dcg_at_k ["relevant", "relevant"] {"relevant"} 10 =
      1 + 1 / Real.logb 2 3 := by
  unfold MsmarcoEval.compute_dcg_at_k
  rw [show (["relevant", "relevant"].take 10).enum =
    [(0, "relevant"), (1, "relevant")] from rfl]
  simp only [List.map_cons, List.map_nil, List.sum_cons, List.sum_nil]
  rw [if_pos (by decide), if_pos (by decide)]
  have h2 : (((0:ℕ) : ℝ) + 2) = 2 := by norm_num
  have h3 : (((1:ℕ) : ℝ) + 2) = 3 := by norm_num
  rw [h2, h3, Real.logb_self_eq_one (by norm_num : (1:ℝ) < 2)]
  norm_num

/-- Helper: the exact NDCG of the claim's scenario. -/
lemma ndcg_concrete :
    MsmarcoEval.compute_ndcg_at_k ["p3", "p1", "p2"] {"p1", "p2"} 10 =
      (1 / Real.logb 2 3 + 1 / 2) / (1 + 1 / Real.logb 2 3) := by
  have hL : (0:ℝ) < Real.logb 2 3 :=
    Real.logb_pos (by norm_num) (by norm_num)
  unfold MsmarcoEval.compute_ndcg_at_k
  dsimp only
  rw [show min (Finset.card ({"p1", "p2"} : Finset String)) 10 = 2 from rfl]
  rw [show List.replicate 2 "relevant" = ["relevant", "relevant"] from rfl]
  rw [dcg_concrete, idcg_concrete]
  rw [if_neg]
  positivity

/-- Helper: numeric bracketing of the concrete NDCG. -/
lemma ndcg_concrete_bounds :
    (69/100 : ℝ) < MsmarcoEval.compute_ndcg_at_k ["p3", "p1", "p2"] {"p1", "p2"} 10 ∧
    MsmarcoEval.compute_ndcg_at_k ["p3", "p1", "p2"] {"p1", "p2"} 10 < 7/10 := by
  rw [ndcg_concrete]
  have hL : (0:ℝ) < Real.logb 2 3 :=
    Real.logb_pos (by norm_num) (by norm_num)
  obtain ⟨hl, hr⟩ := logb_two_three_bounds
  have hinv : Real.logb 2 3 * (1 / Real.logb 2 3) = 1 :=
    mul_one_div_cancel (ne_of_gt hL)
  have hden : (0:ℝ) < 1 + 1 / Real.logb 2 3 := by positivity
  constructor
  · rw [lt_div_iff hden]
    nlinarith [hinv, hl, hr, hL]
  · rw [div_lt_iff hden]
    nlinarith [hinv, hl, hr, hL]

/-- Claim C2, counterexample: the NDCG@10 of the scenario is
`(2 + log2 3)/(2 + 2 log2 3) ≈ 0.6934`, more than `0.2` away from the
claimed `≈ 0.9197`. -/
theorem C2_ndcg_value_cex :
    |MsmarcoEval.compute_ndcg_at_k ["p3", "p1", "p2"] {"p1", "p2"} 10 -
      9197/10000| > 1/5 := by
  obtain ⟨-, hr⟩ := ndcg_concrete_bounds
  have h1 : (9197/10000 : ℝ) -
      MsmarcoEval.compute_ndcg_at_k ["p3", "p1", "p2"] {"p1", "p2"} 10 ≤
      |MsmarcoEval.compute_ndcg_at_k ["p3", "p1", "p2"] {"p1", "p2"} 10 -
        9197/10000| := by
    rw [abs_sub_comm]
    exact le_abs_self _
  linarith

/-- Claim C2, amended: for the ranking `["p3","p1","p2"]` against relevant
set `{"p1","p2"}`, Recall@10 is `1.0` and MRR is `0.5` as claimed, and
NDCG@10 (binary gain `1/log2(i+2)` at zero-based rank `i`, ideal DCG with
the two relevant documents at ranks 1-2) equals
`(1/log2 3 + 1/2)/(1 + 1/log2 3) ≈ 0.6934` (between 0.69 and 0.70), not
`≈ 0.9197`. -/
theorem C2_ground_truth_metrics :
    MsmarcoEval.compute_recall_at_k ["p3", "p1", "p2"] {"p1", "p2"} 10 = 1 ∧
    MsmarcoEval.compute_mrr ["p3", "p1", "p2"] {"p1", "p2"} = 1/2 ∧
    MsmarcoEval.compute_ndcg_at_k ["p3", "p1", "p2"] {"p1", "p2"} 10 =
      (1 / Real.logb 2 3 + 1 / 2) / (1 + 1 / Real.logb 2 3) ∧
    (69/100 : ℝ) < MsmarcoEval.compute_ndcg_at_k ["p3", "p1", "p2"] {"p1", "p2"} 10 ∧
    MsmarcoEval.compute_ndcg_at_k ["p3", "p1", "p2"] {"p1", "p2"} 10 < 7/10 := by
  refine ⟨?_, ?_, ndcg_concrete, ndcg_concrete_bounds.1, ndcg_concrete_bounds.2⟩
  · unfold MsmarcoEval.compute_recall_at_k
    rw [if_neg (by decide)]
    rw [show ((["p3", "p1", "p2"].take 10).toFinset ∩
      ({"p1", "p2"} : Finset String)).card = 2 from by decide]
    rw [show (({"p1", "p2"} : Finset String)).card = 2 from by decide]
    norm_num
  · unfold MsmarcoEval.compute_mrr
    simp only [MsmarcoEval.mrrAux]
    rw [if_neg (by decide), if_pos (by decide)]
    norm_num
